import Mathlib

/-
Verification development for the leads scraping backend.

The Python sources are shallowly embedded:
  * text strings are modelled as `List Char`;
  * `str.strip()` / `str.replace(a, b)` (single-character patterns) /
    `re.sub` patterns used by the code become explicit list functions;
  * the in-memory `ScraperManager` (tasks dictionary + daily stats list)
    becomes a state record, and the asynchronous task lifecycle becomes a
    step relation `Step` whose constructors are the state mutations the
    Python background unit performs between suspension points (asyncio is
    single threaded, so the statements of `_run_scraper` between awaits
    are atomic with respect to any other coroutine);
  * the Google Maps scraper `scrape_googlemaps` is embedded as a total
    function of an environment describing the outcome of its guarded
    browser region (Chrome present or not, body raising or returning).
-/

namespace Leads

/-! ## Character classes (ASCII model of the Python predicates) -/

/-- Python whitespace for `str.strip()` and the regex class `\s`:
space, tab, newline, vertical tab, form feed, carriage return. -/
def isPyWs (c : Char) : Bool :=
  c = ' ' || c = '\t' || c = '\n' || c = '\x0b' || c = '\x0c' || c = '\r'

/-- Python regex `\w` (ASCII part): letters, digits, underscore. -/
def isWordChar (c : Char) : Bool :=
  c.isAlphanum || c = '_'

/-- Python `str.lower()` on a character (ASCII). -/
def pyLower (c : Char) : Char := c.toLower

/-! ## utils.clean_text -/

/-- Python `str.replace(a, b)` where `a` and `b` are single characters. -/
def pyReplaceChar (a b : Char) (l : List Char) : List Char :=
  l.map (fun c => if c = a then b else c)

/-- Python `str.strip()`: drop leading and trailing whitespace. -/
def pyStrip (l : List Char) : List Char :=
  ((l.dropWhile isPyWs).reverse.dropWhile isPyWs).reverse

/-- Embedding of `utils.clean_text`:
`if not text: return ""` then
`text.strip().replace('\n', ' ').replace('\r', ' ').replace('\t', ' ')`. -/
def clean_text (l : List Char) : List Char :=
  if l = [] then []
  else pyReplaceChar '\t' ' ' (pyReplaceChar '\r' ' ' (pyReplaceChar '\n' ' ' (pyStrip l)))

/-- Combined character substitution that the three chained `replace` calls
of `clean_text` amount to: newline, carriage return and tab each become
one space, all other characters are kept. -/
def cleanChar (c : Char) : Char :=
  if c = '\n' || c = '\r' || c = '\t' then ' ' else c

/-! ## googlemaps.create_business_key -/

/-- Python `re.sub(r'\s+', ' ', s)`: every maximal run of whitespace
becomes a single space. The boolean argument records whether the run
currently being read has already emitted its space. -/
def collapseAux : Bool → List Char → List Char
  | _, [] => []
  | prevWs, c :: t =>
    if isPyWs c then
      if prevWs then collapseAux true t else ' ' :: collapseAux true t
    else c :: collapseAux false t

def collapseWs (l : List Char) : List Char := collapseAux false l

/-- The characters kept by `re.sub(r'[^\w\s]', '', s)`. -/
def keepWordOrSpace (c : Char) : Bool := isWordChar c || isPyWs c

/-- Name part of `create_business_key`:
`name_key = re.sub(r'[^\w\s]', '', business_name.lower().strip())` then
`name_key = re.sub(r'\s+', ' ', name_key)`. -/
def name_key (name : List Char) : List Char :=
  collapseWs ((pyStrip (name.map pyLower)).filter keepWordOrSpace)

/-- models.BusinessData: every field optional, text as `List Char`. -/
structure BusinessData where
  business_name : Option (List Char) := none
  category : Option (List Char) := none
  location : Option (List Char) := none
  mobile : Option (List Char) := none
  whatsapp : Option (List Char) := none
  email : Option (List Char) := none
  website : Option (List Char) := none
  source_url : Option (List Char) := none
  source_site : Option (List Char) := none
deriving DecidableEq

/-- Embedding of `googlemaps.create_business_key`: normalised name, plus
the digits of the mobile field (`re.sub(r'[^\d]', '', mobile or '')`);
if the digit string is truthy and longer than 7 the key is
`f"{name_key}_{phone_key}"`, otherwise the name alone. The caller
guarantees `business_name` is present (the collector only offers such
records); a missing name is read as the empty string here. -/
def create_business_key (b : BusinessData) : List Char :=
  let nk := name_key (b.business_name.getD [])
  let pk := (b.mobile.getD []).filter Char.isDigit
  if pk ≠ [] ∧ pk.length > 7 then nk ++ '_' :: pk else nk

/-! ## The deduplicating collection loop
(googlemaps.extract_google_maps_results_enhanced, lines 407-428) -/

/-- The guard `if business_data and business_data.business_name:` of the
loop: a candidate is offered to the dedup test only when extraction
produced a record and its business name is present and non-empty. -/
def offeredRec : Option BusinessData → Option BusinessData
  | none => none
  | some r =>
    match r.business_name with
    | none => none
    | some n => if n = [] then none else some r

/-- The collection loop with its `seen_businesses` set (modelled as the
list of keys added so far): an offered record whose key was already seen
is dropped, otherwise it is appended to the results and its key marked
seen. -/
def collectGo (seen : List (List Char)) : List (Option BusinessData) → List BusinessData
  | [] => []
  | c :: t =>
    match offeredRec c with
    | none => collectGo seen t
    | some r =>
      if create_business_key r ∈ seen then collectGo seen t
      else r :: collectGo (create_business_key r :: seen) t

/-- The loop as started by `scrape_googlemaps`, with an empty seen set. -/
def collect (cands : List (Option BusinessData)) : List BusinessData :=
  collectGo [] cands

/-- The candidates that pass the offer guard, in order. -/
def offered (cands : List (Option BusinessData)) : List BusinessData :=
  cands.filterMap offeredRec

/-- Specification-side canonical form: the distinct keys of a key
sequence, in order of first appearance. -/
def firstKeys : List (List Char) → List (List Char)
  | [] => []
  | k :: t => k :: firstKeys (t.filter (fun x => x ≠ k))
termination_by l => l.length
decreasing_by
  simp only [List.length_cons]
  exact Nat.lt_succ_of_le (List.length_filter_le _ _)

/-! ## Case and whitespace-run equivalence of names (claim C8) -/

/-- Two character lists differ only in runs of whitespace: they are built
from the same non-whitespace characters, with corresponding (possibly
differently sized, always non-empty) whitespace runs between them. -/
inductive WsRunEq : List Char → List Char → Prop
  | nil : WsRunEq [] []
  | char {c : Char} {t1 t2 : List Char} :
      isPyWs c = false → WsRunEq t1 t2 → WsRunEq (c :: t1) (c :: t2)
  | run {r1 r2 t1 t2 : List Char} :
      r1 ≠ [] → r2 ≠ [] →
      (∀ c ∈ r1, isPyWs c = true) → (∀ c ∈ r2, isPyWs c = true) →
      WsRunEq t1 t2 → WsRunEq (r1 ++ t1) (r2 ++ t2)

/-- The hypothesis of claim C8: two business names differ only in letter
case and in runs of whitespace, i.e. after lowercasing they differ only
in whitespace runs. -/
def NameCaseWsEq (n1 n2 : List Char) : Prop :=
  WsRunEq (n1.map pyLower) (n2.map pyLower)

/-! ## scrape_googlemaps (googlemaps.py) -/

/-- The dictionary that `scrape_googlemaps` returns. The success dict has
no `error` key and the failure dicts no meaningful paths; absent keys are
`none`. -/
structure GmResult where
  filename : String
  total_records : Nat
  csv_path : Option String
  excel_path : Option String
  status : String
  error : Option String
deriving DecidableEq

/-- Environment of one `scrape_googlemaps` run: whether a Chrome binary
was found on the probed paths, and the outcome of the guarded browser
region (`try: ... except Exception as e: return {...}`): either the text
of a raised exception, or the pair of the `perform_enhanced_search`
success flag and the stream of candidate records the extraction loop
processes. -/
structure GmEnv where
  chromeBinary : Option String
  browserBody : Except String (Bool × List (Option BusinessData))

/-- Embedding of `scrape_googlemaps` (googlemaps.py lines 95-276): if no
Chrome binary is found, return a `failed` dict; if the guarded region
raises, catch and return a `failed` dict; otherwise dedup-collect the
candidates (only when the search succeeded), export only when at least
one record exists, and return a `completed` / `completed_no_results`
dict. The function is total: no error escapes it. -/
def scrape_googlemaps (env : GmEnv) (task_id timestamp : String) : GmResult :=
  match env.chromeBinary with
  | none =>
    { filename := "failed_" ++ task_id
      total_records := 0
      csv_path := none
      excel_path := none
      status := "failed"
      error := some "Chrome binary not found" }
  | some _ =>
    match env.browserBody with
    | Except.error e =>
      { filename := "failed_" ++ task_id
        total_records := 0
        csv_path := none
        excel_path := none
        status := "failed"
        error := some e }
    | Except.ok (searchSuccess, cands) =>
      let results := if searchSuccess then collect cands else []
      let filename := "googlemaps_uae_" ++ timestamp
      if results.length > 0 then
        { filename := filename
          total_records := results.length
          csv_path := some ("exports/" ++ filename ++ ".csv")
          excel_path := some ("exports/" ++ filename ++ ".xlsx")
          status := "completed"
          error := none }
      else
        { filename := filename
          total_records := results.length
          csv_path := none
          excel_path := none
          status := "completed_no_results"
          error := none }

/-! ## The ScraperManager (scraper_manager.py) -/

/-- scraper_manager.ScraperTask; timestamps are abstract ticks. -/
structure ScraperTask where
  task_id : String
  scraper_name : String
  status : String
  progress : Nat
  message : String
  created_at : Nat
  completed_at : Option Nat := none
  filename : Option String := none
  total_records : Nat := 0
deriving DecidableEq

/-- scraper_manager.ScrapeStats. -/
structure ScrapeStats where
  scraper_name : String
  display_name : String
  total_records : Nat
  runs : Nat
  last_run : Option Nat
deriving DecidableEq

/-- The mutable state of the `ScraperManager` object: the task dictionary
(as an insertion-ordered list, ids are unique in every reachable state),
the daily stats list, the registered scraper names, plus the ids handed
to `asyncio.create_task` (the scheduled background units). -/
structure ScraperManager where
  tasks : List ScraperTask
  daily_stats : List ScrapeStats
  scrapers : List String
  scheduled : List String
deriving DecidableEq

/-- The manager as built by `ScraperManager.__init__`. -/
def initState : ScraperManager :=
  { tasks := [], daily_stats := [], scrapers := ["googlemaps"], scheduled := [] }

/-- The task record `start_scraping` creates. -/
def mkTask (tid name : String) (now : Nat) : ScraperTask :=
  { task_id := tid
    scraper_name := name
    status := "pending"
    progress := 0
    message := "Initializing..."
    created_at := now }

/-- Embedding of `start_scraping`: raising `ValueError` for an unknown
scraper name becomes returning `Except.error` before any state change;
otherwise the pending task is inserted and its run scheduled. -/
def start_scraping (s : ScraperManager) (scraper_name tid : String) (now : Nat) :
    Except String ScraperManager :=
  if scraper_name ∉ s.scrapers then
    Except.error ("Unknown scraper: " ++ scraper_name)
  else
    Except.ok { s with
      tasks := s.tasks ++ [mkTask tid scraper_name now]
      scheduled := s.scheduled ++ [tid] }

/-- The manager state a caller of `start_scraping` observes afterwards:
the new state on success, the unchanged state when the call raised. -/
def start_or_keep (s : ScraperManager) (scraper_name tid : String) (now : Nat) :
    ScraperManager :=
  match start_scraping s scraper_name tid now with
  | Except.ok s2 => s2
  | Except.error _ => s

/-- `self.scraper_display_names.get(scraper_name, scraper_name)`. -/
def displayName (name : String) : String :=
  if name = "googlemaps" then "Google Maps UAE" else name

/-- Embedding of `_update_daily_stats`: update the first stats entry with
a matching scraper name in place, or append a fresh entry. -/
def update_daily_stats : List ScrapeStats → String → String → Nat → Nat → List ScrapeStats
  | [], name, dn, records, now =>
    [{ scraper_name := name
       display_name := dn
       total_records := records
       runs := 1
       last_run := some now }]
  | st :: rest, name, dn, records, now =>
    if st.scraper_name = name then
      { st with
        total_records := st.total_records + records
        runs := st.runs + 1
        last_run := some now } :: rest
    else st :: update_daily_stats rest name dn records now

/-- Embedding of the tail of `_run_scraper` (lines 92-118): how the task
record is mutated once the awaited scraper either returned a result dict
or raised. The whole boundary is a total function: an exception from the
collaborator is data (`Except.error`), never a propagated failure. -/
def run_scraper_finish (t : ScraperTask) (outcome : Except String GmResult) (now : Nat) :
    ScraperTask :=
  match outcome with
  | Except.ok r =>
    { t with
      status := "completed"
      progress := 100
      message := "Completed! Found " ++ toString r.total_records ++ " businesses"
      completed_at := some now
      filename := some r.filename
      total_records := r.total_records }
  | Except.error e =>
    { t with status := "failed", message := "Error: " ++ e, completed_at := some now }

/-- The same boundary at state level: on success the task is completed
and `_update_daily_stats` runs (the two happen in one event-loop slice,
there is no `await` between them); on failure only the task changes. -/
def run_finish_state (s : ScraperManager) (pre : List ScraperTask) (t : ScraperTask)
    (post : List ScraperTask) (outcome : Except String GmResult) (now : Nat) :
    ScraperManager :=
  match outcome with
  | Except.ok r =>
    { s with
      tasks := pre ++ run_scraper_finish t (Except.ok r) now :: post
      daily_stats := update_daily_stats s.daily_stats t.scraper_name
        (displayName t.scraper_name) r.total_records now }
  | Except.error e =>
    { s with tasks := pre ++ run_scraper_finish t (Except.error e) now :: post }

/-- Line 176 of scraper_manager.py: the task-store-derived record total. -/
def sumCompleted (l : List ScraperTask) : Nat :=
  ((l.filter (fun t => t.status = "completed")).map ScraperTask.total_records).sum

/-- Line 179: the stats-aggregate record total. -/
def sumStats (l : List ScrapeStats) : Nat :=
  (l.map ScrapeStats.total_records).sum

/-- The dict returned by `get_today_summary`. -/
structure TodaySummary where
  total_tasks : Nat
  completed_tasks : Nat
  running_tasks : Nat
  failed_tasks : Nat
  total_records : Nat
  stats : List ScrapeStats
deriving DecidableEq

/-- Embedding of `get_today_summary` (lines 168-194), including the
`max(total_records, daily_records)` it takes on line 182. -/
def get_today_summary (s : ScraperManager) : TodaySummary :=
  { total_tasks := s.tasks.length
  , completed_tasks := (s.tasks.filter (fun t => t.status = "completed")).length
  , running_tasks := (s.tasks.filter (fun t => t.status = "running")).length
  , failed_tasks := (s.tasks.filter (fun t => t.status = "failed")).length
  , total_records := max (sumCompleted s.tasks) (sumStats s.daily_stats)
  , stats := s.daily_stats }

/-- One atomic state mutation of the manager, as performed between
`await` suspension points by `start_scraping` or a background
`_run_scraper` unit (asyncio runs them on one thread, so statements
between awaits are atomic with respect to every observer):
starting a task, marking it running, a progress callback write, and the
finish boundary (completion with its stats update, or failure). -/
inductive Step : ScraperManager → ScraperManager → Prop
  | start (s s2 : ScraperManager) (name tid : String) (now : Nat) :
      tid ∉ s.tasks.map ScraperTask.task_id →
      start_scraping s name tid now = Except.ok s2 →
      Step s s2
  | setRunning (s s2 : ScraperManager) (pre post : List ScraperTask) (t : ScraperTask) :
      s.tasks = pre ++ t :: post → t.status = "pending" →
      s2 = { s with tasks := pre ++
        { t with status := "running", message := "Starting scraper..." } :: post } →
      Step s s2
  | progress (s s2 : ScraperManager) (pre post : List ScraperTask) (t : ScraperTask)
      (p : Nat) (msg : String) :
      s.tasks = pre ++ t :: post → t.status = "running" →
      s2 = { s with tasks := pre ++ { t with progress := p, message := msg } :: post } →
      Step s s2
  | finish (s s2 : ScraperManager) (pre post : List ScraperTask) (t : ScraperTask)
      (outcome : Except String GmResult) (now : Nat) :
      s.tasks = pre ++ t :: post → t.status = "running" →
      s2 = run_finish_state s pre t post outcome now →
      Step s s2

/-- States the manager can actually be in. -/
inductive Reachable : ScraperManager → Prop
  | init : Reachable initState
  | step {s s2 : ScraperManager} : Reachable s → Step s s2 → Reachable s2

/-- Per-task shape invariant of terminal states (claim C10). -/
def TaskInv (t : ScraperTask) : Prop :=
  (t.status = "completed" → t.progress = 100 ∧ t.completed_at ≠ none ∧ t.filename ≠ none) ∧
  (t.status = "failed" → t.completed_at ≠ none)

/-- Global invariant: the stats aggregate equals the task-store-derived
completed total, and every task satisfies the terminal-shape invariant. -/
def StateInv (s : ScraperManager) : Prop :=
  sumStats s.daily_stats = sumCompleted s.tasks ∧ ∀ t ∈ s.tasks, TaskInv t

/-! ## Concrete run used by the witnesses -/

def exTask0 : ScraperTask := mkTask "t1" "googlemaps" 0

def exS1 : ScraperManager := { initState with tasks := [exTask0], scheduled := ["t1"] }

def exTask1 : ScraperTask :=
  { exTask0 with status := "running", message := "Starting scraper..." }

def exS2 : ScraperManager := { exS1 with tasks := [exTask1] }

def exResult : GmResult :=
  { filename := "googlemaps_uae_20250101_120000"
    total_records := 5
    csv_path := some "exports/googlemaps_uae_20250101_120000.csv"
    excel_path := some "exports/googlemaps_uae_20250101_120000.xlsx"
    status := "completed"
    error := none }

def exTask2 : ScraperTask := run_scraper_finish exTask1 (Except.ok exResult) 7

def exS3 : ScraperManager := run_finish_state exS2 [] exTask1 [] (Except.ok exResult) 7

def exTaskF : ScraperTask :=
  run_scraper_finish exTask1 (Except.error "Google Maps access blocked") 9

def exSF : ScraperManager :=
  run_finish_state exS2 [] exTask1 [] (Except.error "Google Maps access blocked") 9

/-- A run whose browser worked but whose search yielded no candidates. -/
def envZero : GmEnv :=
  { chromeBinary := some "/usr/bin/google-chrome", browserBody := Except.ok (true, []) }

/-- A run on a host without any Chrome binary. -/
def envNoChrome : GmEnv :=
  { chromeBinary := none, browserBody := Except.ok (true, []) }

/-- Concrete instance data for claim C8: the business name written two
ways that differ only in letter case and in one whitespace run. -/
def nameAlNoorA : List Char :=
  'A' :: 'l' :: ' ' :: 'N' :: 'o' :: 'o' :: 'r' :: ' ' :: 'C' :: 'a' :: 'f' :: 'e' :: []

def nameAlNoorB : List Char :=
  'a' :: 'l' :: ' ' :: ' ' :: ' ' :: 'N' :: 'O' :: 'O' :: 'R' :: ' ' :: 'c' :: 'a' :: 'f' :: 'e' :: []

def mobileAlNoor : List Char :=
  '0' :: '5' :: '0' :: '1' :: '2' :: '3' :: '4' :: '5' :: '6' :: '7' :: []

def recAlNoorA : BusinessData :=
  { business_name := some nameAlNoorA, mobile := some mobileAlNoor }

def recAlNoorB : BusinessData :=
  { business_name := some nameAlNoorB, mobile := some mobileAlNoor }

/-! ## Lemmas about the cleaning primitives -/

theorem dropWhile_head_not {p : Char → Bool} :
    ∀ {l : List Char} {c : Char} {t : List Char}, l.dropWhile p = c :: t → p c = false := by
  intro l
  induction l with
  | nil => intro c t h; simp [List.dropWhile] at h
  | cons a l ih =>
    intro c t h
    rw [List.dropWhile_cons] at h
    split at h
    · exact ih h
    · cases h
      simpa using Bool.of_not_eq_true (by assumption)

theorem dropWhile_eq_self_of_head {p : Char → Bool} {c : Char} {t : List Char}
    (h : p c = false) : (c :: t).dropWhile p = c :: t := by
  rw [List.dropWhile_cons]
  simp [h]

theorem pyStrip_head_not {l : List Char} {c : Char} {t : List Char}
    (h : pyStrip l = c :: t) : isPyWs c = false := by
  unfold pyStrip at h
  have h1 : (l.dropWhile isPyWs).reverse.takeWhile isPyWs
      ++ (l.dropWhile isPyWs).reverse.dropWhile isPyWs
      = (l.dropWhile isPyWs).reverse :=
    List.takeWhile_append_dropWhile isPyWs (l.dropWhile isPyWs).reverse
  have hA : (l.dropWhile isPyWs) =
      (((l.dropWhile isPyWs).reverse.dropWhile isPyWs).reverse
        ++ ((l.dropWhile isPyWs).reverse.takeWhile isPyWs).reverse) := by
    conv_lhs => rw [← List.reverse_reverse (l.dropWhile isPyWs), ← h1]
    rw [List.reverse_append]
  rw [h] at hA
  rw [List.cons_append] at hA
  exact dropWhile_head_not hA

theorem pyStrip_last_not {l : List Char} {c : Char} {t : List Char}
    (h : pyStrip l = t ++ [c]) : isPyWs c = false := by
  unfold pyStrip at h
  have hB : (l.dropWhile isPyWs).reverse.dropWhile isPyWs = c :: t.reverse := by
    have := congrArg List.reverse h
    rw [List.reverse_reverse, List.reverse_append] at this
    simpa using this
  exact dropWhile_head_not hB

theorem pyStrip_eq_self {y : List Char} {c0 c1 : Char} {t0 t1 : List Char}
    (hh : y = c0 :: t0) (hl : y = t1 ++ [c1])
    (h0 : isPyWs c0 = false) (h1 : isPyWs c1 = false) : pyStrip y = y := by
  unfold pyStrip
  have e1 : y.dropWhile isPyWs = y := by rw [hh]; exact dropWhile_eq_self_of_head h0
  rw [e1]
  have e2 : y.reverse.dropWhile isPyWs = y.reverse := by
    have : y.reverse = c1 :: t1.reverse := by rw [hl]; simp
    rw [this]
    exact dropWhile_eq_self_of_head h1
  rw [e2, List.reverse_reverse]

theorem cleanChar_comp (c : Char) :
    (if (if (if c = '\n' then ' ' else c) = '\r' then ' '
        else if c = '\n' then ' ' else c) = '\t' then ' '
      else if (if c = '\n' then ' ' else c) = '\r' then ' '
        else if c = '\n' then ' ' else c) = cleanChar c := by
  by_cases h1 : c = '\n'
  · subst h1; decide
  · by_cases h2 : c = '\r'
    · subst h2; decide
    · by_cases h3 : c = '\t'
      · subst h3; decide
      · simp [cleanChar, h1, h2, h3]

theorem pyReplace_chain (l : List Char) :
    pyReplaceChar '\t' ' ' (pyReplaceChar '\r' ' ' (pyReplaceChar '\n' ' ' l))
      = l.map cleanChar := by
  unfold pyReplaceChar
  rw [List.map_map, List.map_map]
  apply List.map_congr_left
  intro c _
  exact cleanChar_comp c

theorem clean_text_eq_map (l : List Char) :
    clean_text l = (pyStrip l).map cleanChar := by
  by_cases h : l = []
  · subst h; rfl
  · rw [clean_text, if_neg h, pyReplace_chain]

theorem cleanChar_not_ws {c : Char} (h : isPyWs c = false) :
    cleanChar c = c ∧ isPyWs (cleanChar c) = false := by
  simp only [isPyWs, Bool.or_eq_false_iff, decide_eq_false_iff_not] at h
  obtain ⟨⟨⟨⟨⟨hsp, hta⟩, hnl⟩, hvt⟩, hff⟩, hcr⟩ := h
  have hc : cleanChar c = c := by simp [cleanChar, hnl, hcr, hta]
  refine ⟨hc, ?_⟩
  rw [hc]
  simp [isPyWs, hsp, hta, hnl, hvt, hff, hcr]

theorem cleanChar_idem (c : Char) : cleanChar (cleanChar c) = cleanChar c := by
  by_cases h : (c = '\n' || c = '\r' || c = '\t') = true
  · have hc : cleanChar c = ' ' := by rw [cleanChar, if_pos h]
    rw [hc]; decide
  · have hc : cleanChar c = c := by rw [cleanChar, if_neg h]
    rw [hc]; exact hc

theorem map_cleanChar_idem (l : List Char) :
    (l.map cleanChar).map cleanChar = l.map cleanChar := by
  rw [List.map_map]
  apply List.map_congr_left
  intro c _
  exact cleanChar_idem c

/-- C4 (amended): `clean_text` trims leading and trailing whitespace and then
replaces each internal newline, carriage return and tab character by one
space character apiece — a run of `k` such characters becomes `k` spaces,
it is not collapsed to a single space; empty input yields the empty
string (the `pyStrip []  = []` case of the right-hand side). -/
theorem C4_clean_text_replaces_each_ws (l : List Char) :
    clean_text l = (pyStrip l).map cleanChar :=
  clean_text_eq_map l

/-- C4 counterexample: the claim says every internal run of newlines is
collapsed into a single space, so on `"a\n\nb"` it predicts `"a b"`;
the code instead replaces each of the two newlines by its own space,
producing `"a  b"`. -/
theorem C4_counterexample :
    clean_text ['a', '\n', '\n', 'b'] = ['a', ' ', ' ', 'b'] ∧
    clean_text ['a', '\n', '\n', 'b'] ≠ ['a', ' ', 'b'] := by
  decide

/-- C7: `clean_text` is idempotent: cleaning an already-cleaned string is
the identity, because after one pass the string has no leading or trailing
Python whitespace (so `strip` does nothing) and contains no newline,
carriage return or tab (so the three `replace` calls do nothing). -/
theorem C7_clean_text_idempotent (l : List Char) :
    clean_text (clean_text l) = clean_text l := by
  by_cases h : l = []
  · subst h; rfl
  · by_cases hy : clean_text l = []
    · rw [hy]; rfl
    · have hmap : clean_text l = (pyStrip l).map cleanChar := clean_text_eq_map l
      have hsne : pyStrip l ≠ [] := by
        intro h0; rw [h0] at hmap; simp at hmap; exact hy hmap
      obtain ⟨c, t, hct⟩ : ∃ c t, pyStrip l = c :: t := by
        cases hp : pyStrip l with
        | nil => exact absurd hp hsne
        | cons c t => exact ⟨c, t, rfl⟩
      obtain ⟨t1, c1, hlast⟩ : ∃ t1 c1, pyStrip l = t1 ++ [c1] := by
        rcases List.eq_nil_or_concat (pyStrip l) with h0 | ⟨t1, c1, hc⟩
        · exact absurd h0 hsne
        · exact ⟨t1, c1, by rw [hc, List.concat_eq_append]⟩
      have hc0 := pyStrip_head_not hct
      have hc1 := pyStrip_last_not hlast
      have hyh : clean_text l = cleanChar c :: t.map cleanChar := by
        rw [hmap, hct]; simp
      have hyl : clean_text l = t1.map cleanChar ++ [cleanChar c1] := by
        rw [hmap, hlast]; simp
      have hstrip : pyStrip (clean_text l) = clean_text l :=
        pyStrip_eq_self hyh hyl (cleanChar_not_ws hc0).2 (cleanChar_not_ws hc1).2
      rw [clean_text_eq_map (clean_text l), hstrip, hmap, map_cleanChar_idem]

/-! ## Lemmas about the deduplicating collector -/

theorem collectGo_sublist (cands : List (Option BusinessData)) :
    ∀ seen, (collectGo seen cands).Sublist (offered cands) := by
  induction cands with
  | nil => intro seen; simp [collectGo, offered]
  | cons c t ih =>
    intro seen
    cases hoc : offeredRec c with
    | none =>
      simp only [collectGo, hoc, offered, List.filterMap_cons]
      exact ih seen
    | some r =>
      simp only [collectGo, hoc, offered, List.filterMap_cons]
      by_cases hk : create_business_key r ∈ seen
      · rw [if_pos hk]
        exact (ih seen).cons r
      · rw [if_neg hk]
        exact (ih _).cons₂ r

theorem collectGo_keys (cands : List (Option BusinessData)) :
    ∀ seen, (collectGo seen cands).map create_business_key
      = firstKeys (((offered cands).map create_business_key).filter
          (fun k => k ∉ seen)) := by
  induction cands with
  | nil => intro seen; simp [collectGo, offered, firstKeys]
  | cons c t ih =>
    intro seen
    cases hoc : offeredRec c with
    | none =>
      simp only [collectGo, hoc, offered, List.filterMap_cons]
      exact ih seen
    | some r =>
      simp only [collectGo, hoc, offered, List.filterMap_cons, List.map_cons]
      by_cases hk : create_business_key r ∈ seen
      · rw [if_pos hk, List.filter_cons_of_neg (by simpa using hk)]
        exact ih seen
      · rw [if_neg hk, List.filter_cons_of_pos (by simpa using hk), firstKeys,
          List.map_cons, List.filter_filter]
        congr 1
        rw [ih (create_business_key r :: seen)]
        congr 1
        apply List.filter_congr
        intro x _
        simp [List.mem_cons, not_or, Bool.and_comm]

theorem mem_firstKeys {x : List Char} :
    ∀ {l : List (List Char)}, x ∈ firstKeys l → x ∈ l := by
  intro l
  induction l using firstKeys.induct with
  | case1 => intro h; simp [firstKeys] at h
  | case2 k t ih =>
    intro h
    rw [firstKeys] at h
    rcases List.mem_cons.mp h with h0 | h1
    · exact h0 ▸ List.mem_cons_self k t
    · exact List.mem_cons_of_mem k (List.mem_of_mem_filter (ih h1))

theorem firstKeys_nodup : ∀ l : List (List Char), (firstKeys l).Nodup := by
  intro l
  induction l using firstKeys.induct with
  | case1 => simp [firstKeys]
  | case2 k t ih =>
    rw [firstKeys]
    refine List.nodup_cons.mpr ⟨?_, ih⟩
    intro hk
    have := List.of_mem_filter (mem_firstKeys hk)
    simp at this

/-- C3: on every finite candidate sequence, the collection loop's output
has pairwise-distinct dedup keys, is a subsequence of the offered records
(so relative input order is preserved), and its key sequence is exactly
the sequence of distinct offered keys in order of first appearance. -/
theorem C3_collector_dedup (cands : List (Option BusinessData)) :
    ((collect cands).map create_business_key).Nodup ∧
    (collect cands).Sublist (offered cands) ∧
    (collect cands).map create_business_key
      = firstKeys ((offered cands).map create_business_key) := by
  have hkeys : (collect cands).map create_business_key
      = firstKeys ((offered cands).map create_business_key) := by
    rw [collect, collectGo_keys cands []]
    congr 1
    apply List.filter_eq_self.mpr
    intro x _
    simp
  exact ⟨hkeys ▸ firstKeys_nodup _, collectGo_sublist cands [], hkeys⟩

/-! ## Lemmas about case and whitespace-run equivalence (claim C8) -/

theorem dropWhile_all_append {p : Char → Bool} {r : List Char}
    (hr : ∀ c ∈ r, p c = true) (t : List Char) :
    (r ++ t).dropWhile p = t.dropWhile p := by
  induction r with
  | nil => simp
  | cons a r ih =>
    rw [List.cons_append, List.dropWhile_cons_of_pos (hr a (List.mem_cons_self a r))]
    exact ih (fun c hc => hr c (List.mem_cons_of_mem a hc))

theorem wsRunEq_refl : ∀ l : List Char, WsRunEq l l := by
  intro l
  induction l with
  | nil => exact .nil
  | cons c t ih =>
    cases hc : isPyWs c with
    | false => exact .char hc ih
    | true =>
      exact show WsRunEq ([c] ++ t) ([c] ++ t) from
        WsRunEq.run (by simp) (by simp)
          (fun x hx => by simp at hx; subst hx; exact hc)
          (fun x hx => by simp at hx; subst hx; exact hc) ih

theorem wsRunEq_dropWhile {A B : List Char} (h : WsRunEq A B) :
    WsRunEq (A.dropWhile isPyWs) (B.dropWhile isPyWs) := by
  induction h with
  | nil => exact .nil
  | @char c t1 t2 hc hw ih =>
    rw [List.dropWhile_cons_of_neg (by simp [hc]),
      List.dropWhile_cons_of_neg (by simp [hc])]
    exact .char hc hw
  | @run r1 r2 t1 t2 ne1 ne2 hws1 hws2 hw ih =>
    rw [dropWhile_all_append hws1, dropWhile_all_append hws2]
    exact ih

theorem wsRunEq_append_char {A B : List Char} {c : Char} (hc : isPyWs c = false)
    (h : WsRunEq A B) : WsRunEq (A ++ [c]) (B ++ [c]) := by
  induction h with
  | nil => exact .char hc .nil
  | @char c0 t1 t2 hc0 hw ih =>
    rw [List.cons_append, List.cons_append]
    exact .char hc0 ih
  | @run r1 r2 t1 t2 ne1 ne2 hws1 hws2 hw ih =>
    rw [List.append_assoc, List.append_assoc]
    exact .run ne1 ne2 hws1 hws2 ih

theorem wsRunEq_append_run {A B r1 r2 : List Char} (ne1 : r1 ≠ []) (ne2 : r2 ≠ [])
    (hws1 : ∀ c ∈ r1, isPyWs c = true) (hws2 : ∀ c ∈ r2, isPyWs c = true)
    (h : WsRunEq A B) : WsRunEq (A ++ r1) (B ++ r2) := by
  induction h with
  | nil => simpa using WsRunEq.run ne1 ne2 hws1 hws2 WsRunEq.nil
  | @char c0 t1 t2 hc0 hw ih =>
    rw [List.cons_append, List.cons_append]
    exact .char hc0 ih
  | @run s1 s2 t1 t2 me1 me2 mws1 mws2 hw ih =>
    rw [List.append_assoc, List.append_assoc]
    exact .run me1 me2 mws1 mws2 ih

theorem wsRunEq_reverse {A B : List Char} (h : WsRunEq A B) :
    WsRunEq A.reverse B.reverse := by
  induction h with
  | nil => exact .nil
  | @char c t1 t2 hc hw ih =>
    rw [List.reverse_cons, List.reverse_cons]
    exact wsRunEq_append_char hc ih
  | @run r1 r2 t1 t2 ne1 ne2 hws1 hws2 hw ih =>
    rw [List.reverse_append, List.reverse_append]
    refine wsRunEq_append_run ?_ ?_ ?_ ?_ ih
    · simpa using ne1
    · simpa using ne2
    · intro c hc; exact hws1 c (List.mem_reverse.mp hc)
    · intro c hc; exact hws2 c (List.mem_reverse.mp hc)

theorem wsRunEq_pyStrip {A B : List Char} (h : WsRunEq A B) :
    WsRunEq (pyStrip A) (pyStrip B) :=
  wsRunEq_reverse (wsRunEq_dropWhile (wsRunEq_reverse (wsRunEq_dropWhile h)))

theorem wsRunEq_filter {A B : List Char} (h : WsRunEq A B) :
    WsRunEq (A.filter keepWordOrSpace) (B.filter keepWordOrSpace) := by
  induction h with
  | nil => exact .nil
  | @char c t1 t2 hc hw ih =>
    cases hkeep : keepWordOrSpace c with
    | true =>
      rw [List.filter_cons_of_pos hkeep, List.filter_cons_of_pos hkeep]
      exact .char hc ih
    | false =>
      rw [List.filter_cons_of_neg (by simp [hkeep]),
        List.filter_cons_of_neg (by simp [hkeep])]
      exact ih
  | @run r1 r2 t1 t2 ne1 ne2 hws1 hws2 hw ih =>
    rw [List.filter_append, List.filter_append]
    have e1 : r1.filter keepWordOrSpace = r1 :=
      List.filter_eq_self.mpr (fun c hc => by simp [keepWordOrSpace, hws1 c hc])
    have e2 : r2.filter keepWordOrSpace = r2 :=
      List.filter_eq_self.mpr (fun c hc => by simp [keepWordOrSpace, hws2 c hc])
    rw [e1, e2]
    exact .run ne1 ne2 hws1 hws2 ih

theorem collapseAux_true_ws_append {r : List Char}
    (hr : ∀ c ∈ r, isPyWs c = true) (t : List Char) :
    collapseAux true (r ++ t) = collapseAux true t := by
  induction r with
  | nil => simp
  | cons a r ih =>
    rw [List.cons_append, collapseAux]
    rw [if_pos (hr a (List.mem_cons_self a r)), if_pos rfl]
    exact ih (fun c hc => hr c (List.mem_cons_of_mem a hc))

theorem collapseAux_false_ws_append {r : List Char} (ne : r ≠ [])
    (hr : ∀ c ∈ r, isPyWs c = true) (t : List Char) :
    collapseAux false (r ++ t) = ' ' :: collapseAux true t := by
  cases r with
  | nil => exact absurd rfl ne
  | cons a r =>
    rw [List.cons_append, collapseAux, if_pos (hr a (List.mem_cons_self a r))]
    rw [if_neg (by simp)]
    rw [collapseAux_true_ws_append (fun c hc => hr c (List.mem_cons_of_mem a hc)) t]

theorem wsRunEq_collapseAux {A B : List Char} (h : WsRunEq A B) :
    collapseAux false A = collapseAux false B ∧
    collapseAux true A = collapseAux true B := by
  induction h with
  | nil => exact ⟨rfl, rfl⟩
  | @char c t1 t2 hc hw ih =>
    constructor
    · rw [collapseAux, collapseAux, if_neg (by simp [hc]), if_neg (by simp [hc]), ih.1]
    · rw [collapseAux, collapseAux, if_neg (by simp [hc]), if_neg (by simp [hc]), ih.1]
  | @run r1 r2 t1 t2 ne1 ne2 hws1 hws2 hw ih =>
    constructor
    · rw [collapseAux_false_ws_append ne1 hws1, collapseAux_false_ws_append ne2 hws2, ih.2]
    · rw [collapseAux_true_ws_append hws1, collapseAux_true_ws_append hws2, ih.2]

theorem name_key_case_ws {n1 n2 : List Char} (h : NameCaseWsEq n1 n2) :
    name_key n1 = name_key n2 := by
  unfold name_key collapseWs
  exact (wsRunEq_collapseAux (wsRunEq_filter (wsRunEq_pyStrip h))).1

/-- C8: the dedup key is insensitive to letter case and whitespace runs in
the business name: two records whose mobile fields are equal and whose
business names differ only in case and in whitespace runs (formalised by
`NameCaseWsEq`) receive equal keys from `create_business_key`. -/
theorem C8_key_case_ws_insensitive (r1 r2 : BusinessData) (n1 n2 : List Char)
    (h1 : r1.business_name = some n1) (h2 : r2.business_name = some n2)
    (hm : r1.mobile = r2.mobile) (hn : NameCaseWsEq n1 n2) :
    create_business_key r1 = create_business_key r2 := by
  unfold create_business_key
  rw [h1, h2, hm]
  simp only [Option.getD_some]
  rw [name_key_case_ws hn]

/-- C8 witness: the key of a record named `"Al Noor Cafe"` equals the key
of the record named `"al   NOOR cafe"` with the same mobile number. -/
theorem C8_witness : create_business_key recAlNoorA = create_business_key recAlNoorB := by
  apply C8_key_case_ws_insensitive recAlNoorA recAlNoorB nameAlNoorA nameAlNoorB rfl rfl rfl
  unfold NameCaseWsEq
  have e1 : nameAlNoorA.map pyLower =
      'a' :: 'l' :: ' ' :: 'n' :: 'o' :: 'o' :: 'r' :: ' ' :: 'c' :: 'a' :: 'f' :: 'e' :: [] := by
    decide
  have e2 : nameAlNoorB.map pyLower =
      'a' :: 'l' :: ' ' :: ' ' :: ' ' :: 'n' :: 'o' :: 'o' :: 'r' :: ' ' :: 'c' :: 'a' :: 'f' :: 'e' :: [] := by
    decide
  rw [e1, e2]
  refine WsRunEq.char (by decide) (WsRunEq.char (by decide) ?_)
  exact show WsRunEq
      ((' ' :: []) ++ ('n' :: 'o' :: 'o' :: 'r' :: ' ' :: 'c' :: 'a' :: 'f' :: 'e' :: []))
      ((' ' :: ' ' :: ' ' :: []) ++ ('n' :: 'o' :: 'o' :: 'r' :: ' ' :: 'c' :: 'a' :: 'f' :: 'e' :: []))
    from WsRunEq.run (by simp) (by simp) (by decide) (by decide) (wsRunEq_refl _)

/-! ## Lemmas about the manager state machine -/

theorem sumCompleted_nil : sumCompleted [] = 0 := rfl

theorem sumCompleted_append (a b : List ScraperTask) :
    sumCompleted (a ++ b) = sumCompleted a + sumCompleted b := by
  simp [sumCompleted, List.filter_append]

theorem sumCompleted_cons (t : ScraperTask) (l : List ScraperTask) :
    sumCompleted (t :: l)
      = (if t.status = "completed" then t.total_records else 0) + sumCompleted l := by
  by_cases h : t.status = "completed"
  · simp [sumCompleted, List.filter_cons, h]
  · simp [sumCompleted, List.filter_cons, h]

theorem sumStats_update (l : List ScrapeStats) (name dn : String) (r now : Nat) :
    sumStats (update_daily_stats l name dn r now) = sumStats l + r := by
  induction l with
  | nil => simp [update_daily_stats, sumStats]
  | cons st rest ih =>
    by_cases h : st.scraper_name = name
    · rw [update_daily_stats, if_pos h]
      simp only [sumStats, List.map_cons, List.sum_cons] at ih ⊢
      omega
    · rw [update_daily_stats, if_neg h]
      simp only [sumStats, List.map_cons, List.sum_cons] at ih ⊢
      omega

theorem taskInv_of_not_terminal {t : ScraperTask}
    (h1 : t.status ≠ "completed") (h2 : t.status ≠ "failed") : TaskInv t :=
  ⟨fun h => absurd h h1, fun h => absurd h h2⟩

theorem pending_ne_completed : ("pending" : String) ≠ "completed" := by decide

theorem pending_ne_failed : ("pending" : String) ≠ "failed" := by decide

theorem running_ne_completed : ("running" : String) ≠ "completed" := by decide

theorem running_ne_failed : ("running" : String) ≠ "failed" := by decide

theorem completed_ne_failed : ("completed" : String) ≠ "failed" := by decide

theorem failed_ne_completed : ("failed" : String) ≠ "completed" := by decide

theorem forall_mem_middle {P : ScraperTask → Prop} {pre post : List ScraperTask}
    {t t2 : ScraperTask}
    (h : ∀ x ∈ pre ++ t :: post, P x) (h2 : P t2) : ∀ x ∈ pre ++ t2 :: post, P x := by
  intro x hx
  rcases List.mem_append.mp hx with hx1 | hx2
  · exact h x (List.mem_append.mpr (Or.inl hx1))
  · rcases List.mem_cons.mp hx2 with hx3 | hx4
    · exact hx3 ▸ h2
    · exact h x (List.mem_append.mpr (Or.inr (List.mem_cons_of_mem t hx4)))

theorem stateInv_step {s s2 : ScraperManager} (hinv : StateInv s) (hstep : Step s s2) :
    StateInv s2 := by
  obtain ⟨hsum, htask⟩ := hinv
  cases hstep with
  | start name tid now hfresh hok =>
    rw [start_scraping] at hok
    split at hok
    · exact absurd hok (by simp)
    · injection hok with hok2
      subst hok2
      constructor
      · show sumStats s.daily_stats = sumCompleted (s.tasks ++ [mkTask tid name now])
        rw [sumCompleted_append, sumCompleted_cons, sumCompleted_nil]
        have hpend : (mkTask tid name now).status = "pending" := rfl
        rw [hpend, if_neg (by decide)]
        omega
      · intro t ht
        rcases List.mem_append.mp ht with h1 | h2
        · exact htask t h1
        · have he : t = mkTask tid name now := by simpa using h2
          subst he
          exact taskInv_of_not_terminal pending_ne_completed pending_ne_failed
  | setRunning pre post t heq hpend hs2 =>
    subst hs2
    constructor
    · show sumStats s.daily_stats = sumCompleted (pre ++ _ :: post)
      rw [heq] at hsum
      rw [sumCompleted_append, sumCompleted_cons] at hsum ⊢
      rw [hpend, if_neg (by decide)] at hsum
      have hsr : ({ t with status := "running", message := "Starting scraper..." } :
          ScraperTask).status = "running" := rfl
      rw [hsr, if_neg (by decide)]
      omega
    · intro x hx
      refine forall_mem_middle (heq ▸ htask) ?_ x hx
      exact taskInv_of_not_terminal running_ne_completed running_ne_failed
  | progress pre post t p msg heq hrun hs2 =>
    subst hs2
    constructor
    · show sumStats s.daily_stats = sumCompleted (pre ++ _ :: post)
      rw [heq] at hsum
      rw [sumCompleted_append, sumCompleted_cons] at hsum ⊢
      rw [hrun, if_neg (by decide)] at hsum
      have : ({ t with progress := p, message := msg } : ScraperTask).status = t.status := rfl
      rw [this, hrun, if_neg (by decide)]
      omega
    · intro x hx
      refine forall_mem_middle (heq ▸ htask) ?_ x hx
      have hps : ({ t with progress := p, message := msg } : ScraperTask).status
          = t.status := rfl
      refine taskInv_of_not_terminal ?_ ?_
      · intro hx
        exact running_ne_completed (hrun.symm.trans (hps.symm.trans hx))
      · intro hx
        exact running_ne_failed (hrun.symm.trans (hps.symm.trans hx))
  | finish pre post t outcome now heq hrun hs2 =>
    subst hs2
    rw [heq] at hsum
    rw [sumCompleted_append, sumCompleted_cons] at hsum
    rw [hrun, if_neg (by decide)] at hsum
    cases outcome with
    | ok r =>
      constructor
      · show sumStats (update_daily_stats s.daily_stats t.scraper_name
            (displayName t.scraper_name) r.total_records now)
          = sumCompleted (pre ++ run_scraper_finish t (Except.ok r) now :: post)
        rw [sumStats_update, sumCompleted_append, sumCompleted_cons]
        have hst : (run_scraper_finish t (Except.ok r) now).status = "completed" := rfl
        have htr : (run_scraper_finish t (Except.ok r) now).total_records
            = r.total_records := rfl
        rw [hst, if_pos rfl, htr]
        omega
      · intro x hx
        refine forall_mem_middle (heq ▸ htask) ?_ x hx
        constructor
        · intro _
          exact ⟨rfl, by simp [run_scraper_finish], by simp [run_scraper_finish]⟩
        · intro hf
          exact absurd hf completed_ne_failed
    | error e =>
      constructor
      · show sumStats s.daily_stats
          = sumCompleted (pre ++ run_scraper_finish t (Except.error e) now :: post)
        rw [sumCompleted_append, sumCompleted_cons]
        have hst : (run_scraper_finish t (Except.error e) now).status = "failed" := rfl
        rw [hst, if_neg (by decide)]
        omega
      · intro x hx
        refine forall_mem_middle (heq ▸ htask) ?_ x hx
        constructor
        · intro hc
          exact absurd hc failed_ne_completed
        · intro _
          simp [run_scraper_finish]

theorem reachable_inv {s : ScraperManager} (h : Reachable s) : StateInv s := by
  induction h with
  | init =>
    refine ⟨rfl, ?_⟩
    intro t ht
    simp [initState] at ht
  | step hr hs ih => exact stateInv_step ih hs

/-! ## A concrete reachable run -/

theorem step_init_exS1 : Step initState exS1 :=
  Step.start initState exS1 "googlemaps" "t1" 0 (by decide) rfl

theorem step_exS1_exS2 : Step exS1 exS2 :=
  Step.setRunning exS1 exS2 [] [] exTask0 rfl rfl rfl

theorem step_exS2_exS3 : Step exS2 exS3 :=
  Step.finish exS2 exS3 [] [] exTask1 (Except.ok exResult) 7 rfl rfl rfl

theorem step_exS2_exSF : Step exS2 exSF :=
  Step.finish exS2 exSF [] [] exTask1
    (Except.error "Google Maps access blocked") 9 rfl rfl rfl

theorem reach_exS3 : Reachable exS3 :=
  Reachable.step
    (Reachable.step (Reachable.step Reachable.init step_init_exS1) step_exS1_exS2)
    step_exS2_exS3

theorem reach_exSF : Reachable exSF :=
  Reachable.step
    (Reachable.step (Reachable.step Reachable.init step_init_exS1) step_exS1_exS2)
    step_exS2_exSF

/-! ## Claim theorems about the manager -/

/-- C1: in every reachable manager state, the `total_records` that
`get_today_summary` reports equals the sum of `total_records` over
exactly the tasks that are currently `completed`, no matter how task
completions and stats updates interleaved: each completion updates task
and aggregate in one atomic slice, so the aggregate always equals the
task-derived sum and the `max` of the two is that sum. -/
theorem C1_summary_total_records (s : ScraperManager) (h : Reachable s) :
    (get_today_summary s).total_records
      = ((s.tasks.filter (fun t => t.status = "completed")).map
          ScraperTask.total_records).sum := by
  have hinv := reachable_inv h
  show max (sumCompleted s.tasks) (sumStats s.daily_stats) = sumCompleted s.tasks
  rw [hinv.1]
  exact Nat.max_self _

/-- C1 witness: in the concrete reachable state with one completed
5-record task, the summary reports exactly that task-derived sum. -/
theorem C1_witness :
    (get_today_summary exS3).total_records
      = ((exS3.tasks.filter (fun t => t.status = "completed")).map
          ScraperTask.total_records).sum ∧
    (get_today_summary exS3).total_records = 5 :=
  ⟨C1_summary_total_records exS3 reach_exS3, by decide⟩

/-- C5: `start_scraping` called with an unregistered scraper type fails
synchronously with the unknown-scraper error and performs no state
change: the task list and the scheduled background units of the state the
caller keeps are untouched. -/
theorem C5_unknown_scraper (s : ScraperManager) (name tid : String) (now : Nat)
    (h : name ∉ s.scrapers) :
    start_scraping s name tid now = Except.error ("Unknown scraper: " ++ name) ∧
    (start_or_keep s name tid now).tasks = s.tasks ∧
    (start_or_keep s name tid now).scheduled = s.scheduled := by
  have he : start_scraping s name tid now
      = Except.error ("Unknown scraper: " ++ name) := by
    rw [start_scraping, if_pos h]
  refine ⟨he, ?_, ?_⟩ <;> rw [start_or_keep, he]

/-- C5 witness: submitting the unregistered type `yellowpages` to the
freshly initialised manager errors and leaves the state unchanged. -/
theorem C5_witness :
    start_scraping initState "yellowpages" "t9" 3
      = Except.error ("Unknown scraper: " ++ "yellowpages") ∧
    (start_or_keep initState "yellowpages" "t9" 3).tasks = initState.tasks ∧
    (start_or_keep initState "yellowpages" "t9" 3).scheduled = initState.scheduled :=
  C5_unknown_scraper initState "yellowpages" "t9" 3 (by decide)

/-- C6: when the awaited collaborator raises, the run boundary of
`_run_scraper` (a total function here — the exception is consumed as
data and cannot propagate) leaves the task `failed` with `completed_at`
stamped, the message carrying the error text, `total_records` unchanged,
and the daily stats untouched. -/
theorem C6_run_boundary_failure (s : ScraperManager) (pre post : List ScraperTask)
    (t : ScraperTask) (e : String) (now : Nat) :
    (run_scraper_finish t (Except.error e) now).status = "failed" ∧
    (run_scraper_finish t (Except.error e) now).completed_at = some now ∧
    (run_scraper_finish t (Except.error e) now).message = "Error: " ++ e ∧
    (run_scraper_finish t (Except.error e) now).total_records = t.total_records ∧
    (run_finish_state s pre t post (Except.error e) now).tasks
      = pre ++ run_scraper_finish t (Except.error e) now :: post ∧
    (run_finish_state s pre t post (Except.error e) now).daily_stats
      = s.daily_stats :=
  ⟨rfl, rfl, rfl, rfl, rfl, rfl⟩

/-- C10: in every reachable state, every `completed` task has
`progress = 100`, a completion timestamp and a filename, and every
`failed` task has a completion timestamp. -/
theorem C10_terminal_task_fields (s : ScraperManager) (h : Reachable s) :
    ∀ t ∈ s.tasks,
      (t.status = "completed" →
        t.progress = 100 ∧ t.completed_at ≠ none ∧ t.filename ≠ none) ∧
      (t.status = "failed" → t.completed_at ≠ none) := by
  intro t ht
  exact (reachable_inv h).2 t ht

/-- C10 witness: the completed task of the concrete run has progress 100,
a completion stamp and a filename, and the failed task of the alternative
run has a completion stamp. -/
theorem C10_witness :
    (exTask2.progress = 100 ∧ exTask2.completed_at ≠ none ∧ exTask2.filename ≠ none) ∧
    exTaskF.completed_at ≠ none :=
  ⟨(C10_terminal_task_fields exS3 reach_exS3 exTask2 (by decide)).1 (by decide),
   (C10_terminal_task_fields exSF reach_exSF exTaskF (by decide)).2 (by decide)⟩

/-! ## Claim theorems about scrape_googlemaps -/

/-- C9: whenever no Chrome binary is found or the guarded region of
`scrape_googlemaps` raises, the function returns normally with
`total_records = 0` and status tag `"failed"` in a `failed_<task>` dict;
feeding that normal return through the run boundary marks the task
`completed`, so the task-level `failed` state is unreachable for errors
arising inside the collaborator's guarded region. -/
theorem C9_scraper_masks_errors (env : GmEnv) (tid ts : String) (t : ScraperTask)
    (now : Nat)
    (h : env.chromeBinary = none ∨ ∃ e, env.browserBody = Except.error e) :
    (scrape_googlemaps env tid ts).total_records = 0 ∧
    (scrape_googlemaps env tid ts).status = "failed" ∧
    (scrape_googlemaps env tid ts).filename = "failed_" ++ tid ∧
    (run_scraper_finish t (Except.ok (scrape_googlemaps env tid ts)) now).status
      = "completed" ∧
    (run_scraper_finish t (Except.ok (scrape_googlemaps env tid ts)) now).status
      ≠ "failed" := by
  obtain ⟨cb, body⟩ := env
  rcases h with hnone | ⟨e, herr⟩
  · have : cb = none := hnone
    subst this
    exact ⟨rfl, rfl, rfl, rfl, completed_ne_failed⟩
  · have : body = Except.error e := herr
    subst this
    cases cb with
    | none => exact ⟨rfl, rfl, rfl, rfl, completed_ne_failed⟩
    | some p => exact ⟨rfl, rfl, rfl, rfl, completed_ne_failed⟩

/-- C9 witness: on a host with no Chrome binary the result dict has zero
records and status failed, yet the run boundary completes the task. -/
theorem C9_witness :
    (scrape_googlemaps envNoChrome "t1" "20250101_120000").total_records = 0 ∧
    (scrape_googlemaps envNoChrome "t1" "20250101_120000").status = "failed" ∧
    (scrape_googlemaps envNoChrome "t1" "20250101_120000").filename
      = "failed_" ++ "t1" ∧
    (run_scraper_finish exTask1
      (Except.ok (scrape_googlemaps envNoChrome "t1" "20250101_120000")) 9).status
      = "completed" ∧
    (run_scraper_finish exTask1
      (Except.ok (scrape_googlemaps envNoChrome "t1" "20250101_120000")) 9).status
      ≠ "failed" :=
  C9_scraper_masks_errors envNoChrome "t1" "20250101_120000" exTask1 9 (Or.inl rfl)

/-- C2 (amended): a run whose browser worked and whose extraction yielded
zero records returns a `completed_no_results` dict with
`total_records = 0` and a non-null base filename, the run boundary then
marks the task `completed` with `total_records = 0` and that filename —
but, contrary to the claim, the CSV and Excel export paths are null and
no artifact files are written for a zero-record run. -/
theorem C2_zero_records (env : GmEnv) (tid ts : String) (t : ScraperTask) (now : Nat)
    (p : String) (succ : Bool) (cands : List (Option BusinessData))
    (hc : env.chromeBinary = some p)
    (hb : env.browserBody = Except.ok (succ, cands))
    (hz : (if succ then collect cands else []) = []) :
    (scrape_googlemaps env tid ts).total_records = 0 ∧
    (scrape_googlemaps env tid ts).filename = "googlemaps_uae_" ++ ts ∧
    (scrape_googlemaps env tid ts).csv_path = none ∧
    (scrape_googlemaps env tid ts).excel_path = none ∧
    (run_scraper_finish t (Except.ok (scrape_googlemaps env tid ts)) now).status
      = "completed" ∧
    (run_scraper_finish t (Except.ok (scrape_googlemaps env tid ts)) now).total_records
      = 0 ∧
    (run_scraper_finish t (Except.ok (scrape_googlemaps env tid ts)) now).filename
      = some ("googlemaps_uae_" ++ ts) := by
  obtain ⟨cb, body⟩ := env
  have hc2 : cb = some p := hc
  have hb2 : body = Except.ok (succ, cands) := hb
  subst hc2
  subst hb2
  cases succ with
  | false => exact ⟨rfl, rfl, rfl, rfl, rfl, rfl, rfl⟩
  | true =>
    simp only [if_true] at hz
    refine ⟨?_, ?_, ?_, ?_, ?_, ?_, ?_⟩ <;>
      simp [scrape_googlemaps, run_scraper_finish, hz]

/-- C2 witness: the concrete zero-record run of the amended claim. -/
theorem C2_witness :
    (scrape_googlemaps envZero "t1" "20250101_120000").total_records = 0 ∧
    (scrape_googlemaps envZero "t1" "20250101_120000").filename
      = "googlemaps_uae_" ++ "20250101_120000" ∧
    (scrape_googlemaps envZero "t1" "20250101_120000").csv_path = none ∧
    (scrape_googlemaps envZero "t1" "20250101_120000").excel_path = none ∧
    (run_scraper_finish exTask1
      (Except.ok (scrape_googlemaps envZero "t1" "20250101_120000")) 2).status
      = "completed" ∧
    (run_scraper_finish exTask1
      (Except.ok (scrape_googlemaps envZero "t1" "20250101_120000")) 2).total_records
      = 0 ∧
    (run_scraper_finish exTask1
      (Except.ok (scrape_googlemaps envZero "t1" "20250101_120000")) 2).filename
      = some ("googlemaps_uae_" ++ "20250101_120000") :=
  C2_zero_records envZero "t1" "20250101_120000" exTask1 2
    "/usr/bin/google-chrome" true [] rfl rfl (by decide)

/-- C2 counterexample: at this concrete zero-record successful run the
task completes with zero records as the claim says, but the export file
paths are null, refuting the claimed non-null CSV and Excel artifacts. -/
theorem C2_counterexample :
    (scrape_googlemaps envZero "t1" "20250101_120000").total_records = 0 ∧
    (run_scraper_finish exTask1
      (Except.ok (scrape_googlemaps envZero "t1" "20250101_120000")) 2).status
      = "completed" ∧
    ¬ ((scrape_googlemaps envZero "t1" "20250101_120000").csv_path ≠ none ∧
       (scrape_googlemaps envZero "t1" "20250101_120000").excel_path ≠ none) := by
  decide

end Leads
